import Mathlib

/-!
Shallow embedding of the turtle CLI core (conversation context manager,
tool executor, tool-call parser, batch tool loop and streaming tool
detection), translated from `src/turtle_cli`.  Token encoding
(`tiktoken`) and JSON decoding (`json.loads`) are external capabilities
and enter as function parameters; Python exceptions are modelled with
`Except String`; `datetime.now()` timestamps enter as explicit `now`
arguments.
-/

namespace Turtle

/-- A chat message, `\x7brole, content\x7d` as in `conversation.py`. -/
structure Message where
  role : String
  content : String
deriving DecidableEq, Repr

/-- Conversation metadata: `created_at`, `updated_at`, `turn_count`, plus
extra caller-added keys (modelled as string pairs). -/
structure Metadata where
  created_at : String
  updated_at : String
  turn_count : Nat
  extra : List (String × String)
deriving DecidableEq, Repr

/-- State of `ConversationManager` (`conversation.py`). -/
structure ConversationManager where
  system_prompt : Option String
  max_context_tokens : Nat
  model_name : String
  messages : List Message
  metadata : Metadata
deriving DecidableEq, Repr

/-- Python truthiness of an optional string (`if self.system_prompt:`). -/
def strTruthy : Option String → Bool
  | none => false
  | some s => s ≠ ""

/-- `ConversationManager.__init__`: optional system prompt becomes the
initial system message; metadata is initialised fresh. -/
def mkConversationManager (system_prompt : Option String)
    (max_context_tokens : Nat) (model_name : String) (now : String) :
    ConversationManager :=
  { system_prompt := system_prompt
    max_context_tokens := max_context_tokens
    model_name := model_name
    messages :=
      if strTruthy system_prompt then
        [⟨"system", system_prompt.getD ""⟩]
      else []
    metadata := ⟨now, now, 0, []⟩ }

/-- `count_tokens` body over an explicit message list: per message
`len(encode(content)) + 4`, plus a flat `+ 2`.  `enc` is the injected
token-encoding length (`tiktoken` is external). -/
def countTokensList (enc : String → Nat) (ms : List Message) : Nat :=
  (ms.foldl (fun acc m => acc + (enc m.content + 4)) 0) + 2

/-- `ConversationManager.count_tokens(messages)`: `None` means the full
history. -/
def ConversationManager.count_tokens (enc : String → Nat)
    (cm : ConversationManager) (messages : Option (List Message)) : Nat :=
  countTokensList enc (messages.getD cm.messages)

/-- `ConversationManager.add_message`: validates role and non-empty
content before mutating; appends, refreshes `updated_at`, increments
`turn_count` iff the role is `user`. -/
def ConversationManager.add_message (cm : ConversationManager)
    (role content now : String) : Except String ConversationManager :=
  if ¬ (["system", "user", "assistant", "tool"].contains role) then
    .error ("Invalid role: " ++ role)
  else if content = "" then
    .error "Message content cannot be empty"
  else
    .ok { cm with
      messages := cm.messages ++ [⟨role, content⟩]
      metadata :=
        { cm.metadata with
          updated_at := now
          turn_count :=
            if role = "user" then cm.metadata.turn_count + 1
            else cm.metadata.turn_count } }

/-- Messages with role `system` (`conversation.py` line 94). -/
def sysMessages (ms : List Message) : List Message :=
  ms.filter (fun m => m.role == "system")

/-- Messages with role other than `system` (`conversation.py` line 95). -/
def convMessages (ms : List Message) : List Message :=
  ms.filter (fun m => !(m.role == "system"))

/-- The Python for-loop that finds the split index: scan `i` upward from
`i₀` for `fuel` steps, returning the first `i` with `fits i`. -/
def scanSplit (fits : Nat → Bool) (i fuel : Nat) : Option Nat :=
  match fuel with
  | 0 => none
  | fuel' + 1 => if fits i then some i else scanSplit fits (i + 1) fuel'

/-- `_create_ai_summary`'s `"\n\n".join(f"\x7bROLE\x7d: \x7bcontent\x7d")`. -/
def conversationText (ms : List Message) : String :=
  String.intercalate "\n\n" (ms.map (fun m => m.role.toUpper ++ ": " ++ m.content))

/-- The two-message summarization request `_create_ai_summary` sends to
the injected LLM client. -/
def summaryPrompt (ms : List Message) : List Message :=
  [⟨"system", "Summarize the following conversation concisely in one paragraph."⟩,
   ⟨"user", conversationText ms⟩]

/-- `ConversationManager.truncate_context`.  `chat` is the injected
summarizer (`llm_client.chat`).  Returns the updated state and the
number of dropped messages, or the `RuntimeError` message text. -/
def ConversationManager.truncate_context (enc : String → Nat)
    (cm : ConversationManager) (target_tokens : Option Nat)
    (chat : List Message → String) :
    Except String (ConversationManager × Nat) :=
  let target := target_tokens.getD cm.max_context_tokens
  let current := countTokensList enc cm.messages
  if current ≤ target then
    .ok (cm, 0)
  else
    let sysMs := sysMessages cm.messages
    let convMs := convMessages cm.messages
    let split :=
      (scanSplit
        (fun i => decide (countTokensList enc (sysMs ++ convMs.drop i) ≤ target))
        0 convMs.length).getD 0
    if split = 0 then
      .error ("Cannot fit conversation within token limit (" ++ toString target ++
        " tokens). This indicates a configuration issue: either increase " ++
        "max_context_tokens, reduce message sizes, or check for abnormally large messages.")
    else
      let toSummarize := convMs.take split
      let remaining := convMs.drop split
      let summary := chat (summaryPrompt toSummarize)
      let summaryMessage : Message := ⟨"user", "[Context Summary]: " ++ summary⟩
      .ok ({ cm with messages := sysMs ++ [summaryMessage] ++ remaining },
           toSummarize.length)

/-- `ConversationManager.prepare_messages_for_api`: truncate to
`max_context_tokens - reserve_tokens` then return the full message list
(the updated manager is returned alongside, since state is explicit). -/
def ConversationManager.prepare_messages_for_api (enc : String → Nat)
    (cm : ConversationManager) (reserve_tokens : Nat)
    (chat : List Message → String) :
    Except String (ConversationManager × List Message) :=
  match cm.truncate_context enc (some (cm.max_context_tokens - reserve_tokens)) chat with
  | .error e => .error e
  | .ok (cm', _) => .ok (cm', cm'.messages)

/-- `ConversationManager.set_system_prompt`: validates the prompt, when
`replace` strips existing system messages, then inserts the new system
message at index 0 and updates `system_prompt`. -/
def ConversationManager.set_system_prompt (cm : ConversationManager)
    (prompt : String) (replace : Bool) : Except String ConversationManager :=
  if prompt = "" then
    .error "System prompt cannot be empty"
  else
    let ms := if replace then cm.messages.filter (fun m => !(m.role == "system"))
              else cm.messages
    .ok { cm with
      messages := ⟨"system", prompt⟩ :: ms
      system_prompt := some prompt }

/-- `ConversationManager.reset`: keep only the system message (when asked
and present), or clear everything; metadata fully reinitialised. -/
def ConversationManager.reset (cm : ConversationManager) (keep_system_prompt : Bool)
    (now : String) : ConversationManager :=
  if keep_system_prompt && strTruthy cm.system_prompt then
    { cm with
      messages := [⟨"system", cm.system_prompt.getD ""⟩]
      metadata := ⟨now, now, 0, []⟩ }
  else
    { cm with
      messages := []
      system_prompt := none
      metadata := ⟨now, now, 0, []⟩ }

/-- The whole-state record `save` serialises (JSON file contents,
abstracted to the record level: JSON round-trips these fields exactly). -/
structure ConversationData where
  system_prompt : Option String
  max_context_tokens : Nat
  model_name : String
  messages : List Message
  metadata : Metadata
deriving DecidableEq, Repr

/-- `ConversationManager.save`: the serialized state. -/
def ConversationManager.save (cm : ConversationManager) : ConversationData :=
  ⟨cm.system_prompt, cm.max_context_tokens, cm.model_name, cm.messages, cm.metadata⟩

/-- `ConversationManager.load`: constructs a fresh manager from the
serialized fields, then overwrites `messages` and `metadata` with the
saved values. -/
def ConversationManager.load (d : ConversationData) (now : String) :
    ConversationManager :=
  let m := mkConversationManager d.system_prompt d.max_context_tokens d.model_name now
  { m with messages := d.messages, metadata := d.metadata }

/-- One `ConversationManager` mutation, for stating history invariants. -/
inductive Op where
  | add (role content now : String)
  | setSys (prompt : String) (replace : Bool)
  | trunc (target : Option Nat)
  | doReset (keep : Bool) (now : String)
deriving Repr

/-- Apply one operation; a raising operation leaves the state unchanged
(each Python method validates/raises before mutating). -/
def applyOp (enc : String → Nat) (chat : List Message → String)
    (cm : ConversationManager) : Op → ConversationManager
  | .add role content now => ((cm.add_message role content now).toOption).getD cm
  | .setSys prompt replace => ((cm.set_system_prompt prompt replace).toOption).getD cm
  | .trunc target =>
      match cm.truncate_context enc target chat with
      | .ok (cm', _) => cm'
      | .error _ => cm
  | .doReset keep now => cm.reset keep now

/-- Apply a sequence of operations in order. -/
def applyOps (enc : String → Nat) (chat : List Message → String)
    (cm : ConversationManager) (ops : List Op) : ConversationManager :=
  ops.foldl (applyOp enc chat) cm

/-- `ToolResult` (`protocol.py`): success flag, optional data (string
payloads suffice for the claims), optional error, metadata mapping. -/
structure ToolResult where
  success : Bool
  data : Option String := none
  error : Option String := none
  metadata : List (String × String) := []
deriving DecidableEq, Repr

/-- A registered tool: its `execute` either returns a `ToolResult` or
raises (modelled as `Except.error` carrying the exception message). -/
structure Tool where
  execute : List (String × String) → Except String ToolResult

/-- `ToolRegistry.get`: name lookup (the registry dict, as an
association list keyed by tool name). -/
def registryGet (registry : List (String × Tool)) (name : String) : Option Tool :=
  (registry.find? (fun p => p.1 == name)).map (fun p => p.2)

/-- `ToolExecutor.execute` (`executor.py`): absent tool → failed result
with a not-found message; an exception from the tool's `execute` →
failed result wrapping the message; otherwise the tool's own result.
Total by construction: it never raises. -/
def ToolExecutor.execute (registry : List (String × Tool)) (tool_name : String)
    (kwargs : List (String × String)) : ToolResult :=
  match registryGet registry tool_name with
  | none =>
      { success := false
        error := some ("Tool '" ++ tool_name ++ "' not found in registry") }
  | some tool =>
      match tool.execute kwargs with
      | .ok result => result
      | .error e =>
          { success := false
            error := some ("Unexpected error executing tool '" ++ tool_name ++
              "': " ++ e) }

/-- A JSON value sitting under a tool call's `"arguments"` key: either a
JSON-encoded string (to be decoded) or an already-structured object. -/
inductive ArgVal where
  | str (s : String)
  | obj (m : List (String × String))
deriving DecidableEq, Repr

/-- The `"function"` object of a raw tool-call entry. -/
structure RawFunction where
  name : Option String := none
  arguments : Option ArgVal := none
deriving DecidableEq, Repr

/-- A raw tool-call dict as produced by JSON decoding
(`\x7b"id": ..., "function": \x7b"name": ..., "arguments": ...\x7d\x7d`). -/
structure RawToolCall where
  id : Option String := none
  function : Option RawFunction := none
deriving DecidableEq, Repr

/-- `ParsedToolCall` (`parser.py`). -/
structure ParsedToolCall where
  id : String
  function_name : String
  arguments : List (String × String)
deriving DecidableEq, Repr

/-- `ToolCallParser._parse_single_tool_call`: defaults for missing keys
(`id` → `""`, `name` → `""`, `arguments` → `"\x7b\x7d"`); a string-valued
`arguments` is JSON-decoded by the injected `parseArgs` (`json.loads`),
decode failure yielding the empty map. -/
def parseSingleToolCall (parseArgs : String → Option (List (String × String)))
    (tc : RawToolCall) : Option ParsedToolCall :=
  let call_id := tc.id.getD ""
  let function_data := tc.function.getD {}
  let function_name := function_data.name.getD ""
  let arguments_val := function_data.arguments.getD (.str "\x7b\x7d")
  let arguments :=
    match arguments_val with
    | .str s => (parseArgs s).getD []
    | .obj m => m
  some { id := call_id, function_name := function_name, arguments := arguments }

/-- `ToolCallParser.parse_tool_calls` applied to an already-extracted
`tool_calls` field (`None` and the empty list both yield no calls). -/
def parseToolCallsOpt (parseArgs : String → Option (List (String × String))) :
    Option (List RawToolCall) → List ParsedToolCall
  | none => []
  | some [] => []
  | some raw => raw.filterMap (parseSingleToolCall parseArgs)

/-- A model response (`loop.py`): polymorphic over the mapping shape
(`choices[0].message` with optional `content`/`tool_calls` keys) and the
object shape (`.choices[0].message` attributes); `other` covers shapes
with neither `choices` nor `tool_calls`. -/
inductive Response where
  | rmap (content : Option String) (tool_calls : Option (List RawToolCall))
  | robj (content : Option String) (tool_calls : Option (List RawToolCall))
  | other
deriving Repr

/-- `ToolCallParser._extract_tool_calls` on a `Response`. -/
def extractToolCallsResp : Response → Option (List RawToolCall)
  | .rmap _ tcs => tcs
  | .robj _ tcs => tcs
  | .other => none

/-- `ToolCallParser.parse_tool_calls` on a `Response`. -/
def parseToolCallsResp (parseArgs : String → Option (List (String × String)))
    (r : Response) : List ParsedToolCall :=
  parseToolCallsOpt parseArgs (extractToolCallsResp r)

/-- `ToolOrchestrator._extract_assistant_content`: the message content
from either shape, the empty string when absent (or for other shapes). -/
def extractAssistantContent : Response → String
  | .rmap content _ => content.getD ""
  | .robj content _ => content.getD ""
  | .other => ""

/-- `LiteLLMFormatter._serialize_data` restricted to the string payloads
this embedding carries: `None → ""`, a string verbatim. -/
def serializeData : Option String → String
  | none => ""
  | some s => s

/-- `LiteLLMFormatter.format_tool_response`'s `content` field: success →
serialized data; failure → `"Error: \x7bmessage\x7d"` or `"Unknown error"`. -/
def formatToolResponseContent (result : ToolResult) : String :=
  if result.success then
    serializeData result.data
  else
    match result.error with
    | some e => if e ≠ "" then "Error: " ++ e else "Unknown error"
    | none => "Unknown error"

/-- `ToolOrchestrator._execute_tool_calls`'s per-call body: execute, format,
append the tool message (tool-message content is never empty here only if
formatting yields text; an empty formatted content raises in
`add_message`, faithfully propagated). -/
def executeToolCallsLoop (registry : List (String × Tool))
    (now : String) (cm : ConversationManager) :
    List ParsedToolCall → Except String ConversationManager
  | [] => .ok cm
  | tc :: rest =>
      let result := ToolExecutor.execute registry tc.function_name tc.arguments
      let content := formatToolResponseContent result
      match cm.add_message "tool" content now with
      | .error e => .error e
      | .ok cm' => executeToolCallsLoop registry now cm' rest

/-- `ToolOrchestrator._execute_tool_calls`: append the assistant's own
content when non-empty, then run the calls in order. -/
def executeToolCalls (registry : List (String × Tool)) (now : String)
    (cm : ConversationManager) (tool_calls : List ParsedToolCall)
    (llm_response : Response) : Except String ConversationManager :=
  let assistant_content := extractAssistantContent llm_response
  let step1 : Except String ConversationManager :=
    if assistant_content ≠ "" then cm.add_message "assistant" assistant_content now
    else .ok cm
  match step1 with
  | .error e => .error e
  | .ok cm' => executeToolCallsLoop registry now cm' tool_calls

/-- The iterations of `ToolOrchestrator.execute_loop` after the user
message is appended: each round truncates via
`prepare_messages_for_api(reserve_tokens=1000)`, consumes the next model
response, and either finishes (no tool calls) or executes the calls and
loops.  `responses` is the injected model's successive `chat` replies;
running out of fuel returns the sentinel string. -/
def executeLoopAux (enc : String → Nat) (chat : List Message → String)
    (registry : List (String × Tool))
    (parseArgs : String → Option (List (String × String))) (now : String) :
    Nat → ConversationManager → List Response →
    Except String (String × ConversationManager)
  | 0, cm, _ => .ok ("Maximum iteration limit reached", cm)
  | _ + 1, _, [] => .error "model produced no response"
  | fuel + 1, cm, r :: rest =>
      match cm.prepare_messages_for_api enc 1000 chat with
      | .error e => .error e
      | .ok (cm', _) =>
          let tool_calls := parseToolCallsResp parseArgs r
          match tool_calls with
          | [] =>
              let assistant_content := extractAssistantContent r
              match cm'.add_message "assistant" assistant_content now with
              | .error e => .error e
              | .ok cm'' => .ok (assistant_content, cm'')
          | _ :: _ =>
              match executeToolCalls registry now cm' tool_calls r with
              | .error e => .error e
              | .ok cm'' => executeLoopAux enc chat registry parseArgs now fuel cm'' rest

/-- `ToolOrchestrator.execute_loop`: append the user message, then run up
to `max_iterations` rounds. -/
def executeLoop (enc : String → Nat) (chat : List Message → String)
    (registry : List (String × Tool))
    (parseArgs : String → Option (List (String × String))) (now : String)
    (max_iterations : Nat) (cm : ConversationManager) (user_input : String)
    (responses : List Response) : Except String (String × ConversationManager) :=
  match cm.add_message "user" user_input now with
  | .error e => .error e
  | .ok cm' => executeLoopAux enc chat registry parseArgs now max_iterations cm' responses

/-- Python `str.find` on character lists: index of the first occurrence
of `pat` in `s`, counting from `i₀`. -/
def pyFindAux (pat : List Char) : List Char → Nat → Option Nat
  | [], n => if pat.isEmpty then some n else none
  | c :: rest, n =>
      if pat.isPrefixOf (c :: rest) then some n
      else pyFindAux pat rest (n + 1)

/-- Python `pat in s` / `s.find(pat)` on strings. -/
def pyFind (s pat : String) : Option Nat :=
  pyFindAux pat.toList s.toList 0

/-- Python `pat in s`. -/
def pyContains (s pat : String) : Bool :=
  (pyFind s pat).isSome

/-- Python slicing `s[:n]`. -/
def pyTake (s : String) (n : Nat) : String :=
  ⟨s.toList.take n⟩

/-- Python `str.strip()`: drop leading and trailing whitespace. -/
def pyStrip (s : String) : String :=
  ⟨((s.toList.dropWhile Char.isWhitespace).reverse.dropWhile Char.isWhitespace).reverse⟩

/-- The bracket-depth scanner body of `_extract_tool_calls_from_content`
(`streaming.py` lines 145-156), after the first `[` was seen: extend the
slice, tracking `[`/`]` nesting (quote-unaware, as in the source), and
return the balanced slice once depth returns to zero. -/
def scanDepth (acc : List Char) (depth : Nat) : List Char → Option (List Char)
  | [] => none
  | c :: rest =>
      if c = '[' then scanDepth (acc ++ [c]) (depth + 1) rest
      else if c = ']' then
        if depth = 1 then some (acc ++ [c])
        else scanDepth (acc ++ [c]) (depth - 1) rest
      else scanDepth (acc ++ [c]) depth rest

/-- Locate `"tool_calls":`, skip to the first following `[`, and slice
out the bracket-balanced span (`None` when the span never closes). -/
def bracketSlice (content : String) : Option String :=
  match pyFind content "\"tool_calls\":" with
  | none => none
  | some start =>
      let after := (content.toList.drop start).dropWhile (fun c => c ≠ '[')
      match after with
      | [] => none
      | c :: rest =>
          if c = '[' then (scanDepth [c] 1 rest).map (fun l => (⟨l⟩ : String))
          else none

/-- The degenerate branch of `_extract_tool_calls_from_content`
(`streaming.py` lines 158-159): the whole stripped text is a bare array
starting with `[\x7b` and a `"function"` marker occurs somewhere. -/
def degenerateExtract (parseJson : String → Option (List RawToolCall))
    (content : String) : Option (List RawToolCall) :=
  if "[\x7b".toList.isPrefixOf (pyStrip content).toList &&
      pyContains content "\"function\"" then
    parseJson (pyStrip content)
  else none

/-- `StreamingToolOrchestrator._extract_tool_calls_from_content`.
`parseJson` is the injected `json.loads` (restricted to arrays of
tool-call objects; any other outcome is a decode failure).  A decode
failure inside the `"tool_calls":` branch aborts the whole function
(the `except` returns `None` without trying the degenerate branch);
an unclosed bracket span falls through to the degenerate branch. -/
def extractToolCallsFromContent (parseJson : String → Option (List RawToolCall))
    (content : String) : Option (List RawToolCall) :=
  if pyContains content "\"tool_calls\":" then
    match bracketSlice content with
    | some slice => parseJson slice
    | none => degenerateExtract parseJson content
  else degenerateExtract parseJson content

/-- `StreamingToolOrchestrator._detect_partial_tool_calls`: when a
marker (`<|tool_call|>` or `"tool_calls"`) is present, parse whatever
the extractor produced through `ToolCallParser`; the `None` and
empty-list outcomes are both "nothing detected" (the caller tests
truthiness). -/
def detectPartialToolCalls (parseJson : String → Option (List RawToolCall))
    (parseArgs : String → Option (List (String × String)))
    (content : String) : List ParsedToolCall :=
  if pyContains content "<|tool_call|>" || pyContains content "\"tool_calls\"" then
    parseToolCallsOpt parseArgs (extractToolCallsFromContent parseJson content)
  else []

/-- `StreamingToolOrchestrator._extract_content_before_tools`: the text
before the first marker from the fixed priority list, stripped. -/
def extractContentBeforeTools (content : String) : String :=
  match pyFind content "<|tool_call|>" with
  | some i => pyStrip (pyTake content i)
  | none =>
      match pyFind content "\"tool_calls\":" with
      | some i => pyStrip (pyTake content i)
      | none =>
          match pyFind content "[\x7b\"id\":" with
          | some i => pyStrip (pyTake content i)
          | none => pyStrip content

/-- `StreamingToolOrchestrator._process_stream_with_tool_detection` on a
finite fragment list, from accumulated text `acc`: returns the yielded
fragments and the captured tool calls (`none` when the stream ends with
no detection).  While detection is falsy, each fragment is forwarded
verbatim; on detection, the stripped before-marker prefix is yielded
when non-empty and consumption stops. -/
def processStreamAux (parseJson : String → Option (List RawToolCall))
    (parseArgs : String → Option (List (String × String))) (acc : String) :
    List String → List String × Option (List ParsedToolCall)
  | [] => ([], none)
  | chunk :: rest =>
      let acc' := acc ++ chunk
      match detectPartialToolCalls parseJson parseArgs acc' with
      | [] =>
          let r := processStreamAux parseJson parseArgs acc' rest
          (chunk :: r.1, r.2)
      | tc :: tcs =>
          let before := extractContentBeforeTools acc'
          ((if before ≠ "" then [before] else []), some (tc :: tcs))

/-- The whole detector run over a fragment stream (empty accumulator). -/
def processStream (parseJson : String → Option (List RawToolCall))
    (parseArgs : String → Option (List (String × String)))
    (fragments : List String) : List String × Option (List ParsedToolCall) :=
  processStreamAux parseJson parseArgs "" fragments

/-! Concrete instances used by counterexamples and witnesses.  `encLen`
is a concrete injected token encoding (one token per character); the
`cParse`/`cArgs` functions are `json.loads` pinned to the concrete
strings the traces can feed it. -/

/-- A concrete injected token encoding: one token per character. -/
def encLen : String → Nat := fun s => s.length

/-- A concrete summarizer returning a one-character summary. -/
def chatS : List Message → String := fun _ => "S"

/-- A concrete summarizer returning a 30-character summary. -/
def chatLong : List Message → String := fun _ => "summarysummarysummarysummarysu"

/-- The tool-call array fragment of spec testable property 9:
`[\x7b"id":"1","function":\x7b"name":"f","arguments":"\x7b\x7d"\x7d\x7d]`. -/
def arrStr : String :=
  "[\x7b\"id\":\"1\",\"function\":\x7b\"name\":\"f\",\"arguments\":\"\x7b\x7d\"\x7d\x7d]"

/-- The decoded form of `arrStr`'s single entry. -/
def rawF : RawToolCall :=
  { id := some "1"
    function := some { name := some "f", arguments := some (.str "\x7b\x7d") } }

/-- A bare tool-call array whose `id` string carries the `<|tool_call|>`
marker, making it detectable while remaining valid JSON. -/
def degenStr : String :=
  "[\x7b\"id\":\"<|tool_call|>\",\"function\":\x7b\"name\":\"f\",\"arguments\":\"\x7b\x7d\"\x7d\x7d]"

/-- The decoded form of `degenStr`'s single entry. -/
def rawDegen : RawToolCall :=
  { id := some "<|tool_call|>"
    function := some { name := some "f", arguments := some (.str "\x7b\x7d") } }

/-- `json.loads` pinned to the concrete array texts of the traces (it
decodes exactly the two well-formed arrays above, as the real decoder
would, and fails elsewhere). -/
def cParse : String → Option (List RawToolCall) :=
  fun s => if s = arrStr then some [rawF] else if s = degenStr then some [rawDegen] else none

/-- `json.loads` pinned to the empty-object argument string. -/
def cArgs : String → Option (List (String × String)) :=
  fun s => if s = "\x7b\x7d" then some [] else none

/-- A 10-character user message. -/
def msgA : Message := ⟨"user", "aaaaaaaaaa"⟩

/-- A 10-character user message. -/
def msgB : Message := ⟨"user", "bbbbbbbbbb"⟩

/-- A 10-character user message. -/
def msgC : Message := ⟨"user", "cccccccccc"⟩

/-- A manager holding three 10-character user messages. -/
def cmThree : ConversationManager :=
  { system_prompt := none, max_context_tokens := 1020, model_name := "m",
    messages := [msgA, msgB, msgC], metadata := ⟨"t0", "t0", 3, []⟩ }

/-- `cmThree` after `truncate_context(30, chatS)`: the 2-message suffix
is kept and the dropped prefix is replaced by the summary message. -/
def cmThreeAfter : ConversationManager :=
  { system_prompt := none, max_context_tokens := 1020, model_name := "m",
    messages := [⟨"user", "[Context Summary]: S"⟩, msgB, msgC],
    metadata := ⟨"t0", "t0", 3, []⟩ }

/-- A manager holding two 10-character user messages, with
`max_context_tokens = 1020` so that a 1000-token reserve leaves 20. -/
def cmTwo : ConversationManager :=
  { system_prompt := none, max_context_tokens := 1020, model_name := "m",
    messages := [msgA, msgB], metadata := ⟨"t0", "t0", 2, []⟩ }

/-- A manager holding a single 100-character user message. -/
def cmBig : ConversationManager :=
  { system_prompt := none, max_context_tokens := 10000, model_name := "m",
    messages := [⟨"user", String.mk (List.replicate 100 'a')⟩],
    metadata := ⟨"t0", "t0", 1, []⟩ }

/-- A fresh manager with system prompt `"a"`. -/
def cmSysA : ConversationManager := mkConversationManager (some "a") 100 "m" "t0"

/-- A fresh empty manager with a large budget. -/
def cmFresh : ConversationManager := mkConversationManager none 100000 "m" "t0"

/-- The at-most-one-system-message-and-it-is-first invariant, stated as:
no message after the head has role `system` (equivalent: every system
message sits at index 0, hence there is at most one and it is first). -/
def SysInv (ms : List Message) : Prop :=
  ∀ m ∈ ms.tail, m.role ≠ "system"

instance (ms : List Message) : Decidable (SysInv ms) :=
  List.decidableBAll _ ms.tail

/-- The operations under which the system-message invariant actually
holds: `add_message` with a non-system role, `set_system_prompt` with
`replace = true`, truncation and reset. -/
def SafeOp : Op → Prop
  | .add role _ _ => role ≠ "system"
  | .setSys _ replace => replace = true
  | .trunc _ => True
  | .doReset _ _ => True

instance : DecidablePred SafeOp := fun op => by
  cases op <;> simp only [SafeOp] <;> infer_instance

/-- `cmTwo` after `truncate_context(20, chatLong)`: one message dropped,
summary message inserted; its token count is 69, over the target 20. -/
def cmTwoAfter : ConversationManager :=
  { system_prompt := none, max_context_tokens := 1020, model_name := "m",
    messages := [⟨"user", "[Context Summary]: summarysummarysummarysummarysu"⟩, msgB],
    metadata := ⟨"t0", "t0", 2, []⟩ }

/-- `cmFresh` after appending the user message `"Hello"`. -/
def cmFreshUser : ConversationManager :=
  ((cmFresh.add_message "user" "Hello" "t1").toOption).getD cmFresh

/-- A tool whose `execute` always raises (exception message `"boom"`). -/
def toolBoom : Tool := ⟨fun _ => .error "boom"⟩

/-! Helper lemmas. -/

theorem foldl_add_eq (f : Message → Nat) (ms : List Message) (a : Nat) :
    ms.foldl (fun acc m => acc + f m) a = a + (ms.map f).sum := by
  induction ms generalizing a with
  | nil => simp
  | cons m rest ih => simp [List.foldl, ih, Nat.add_assoc]

theorem countTokensList_eq_sum (enc : String → Nat) (ms : List Message) :
    countTokensList enc ms = (ms.map (fun m => enc m.content + 4)).sum + 2 := by
  simp [countTokensList, foldl_add_eq]

theorem countTokensList_append (enc : String → Nat) (xs ys : List Message) :
    countTokensList enc (xs ++ ys) =
      countTokensList enc xs + countTokensList enc ys - 2 := by
  simp [countTokensList_eq_sum]
  omega

theorem sum_map_filter_partition (p : Message → Bool) (f : Message → Nat)
    (ms : List Message) :
    ((ms.filter p).map f).sum + ((ms.filter (fun m => !(p m))).map f).sum =
      (ms.map f).sum := by
  induction ms with
  | nil => simp
  | cons m rest ih =>
    by_cases h : p m <;> simp [List.filter_cons, h] <;> omega

theorem countTokens_sys_conv (enc : String → Nat) (ms : List Message) :
    countTokensList enc (sysMessages ms ++ convMessages ms) =
      countTokensList enc ms := by
  simp only [countTokensList_eq_sum, sysMessages, convMessages, List.map_append,
    List.sum_append]
  rw [sum_map_filter_partition]

theorem scanSplit_some (q : Nat → Bool) :
    ∀ (fuel i k : Nat), scanSplit q i fuel = some k →
      q k = true ∧ i ≤ k ∧ k < i + fuel ∧
        ∀ j, i ≤ j → j < k → q j = false := by
  intro fuel
  induction fuel with
  | zero => intro i k h; simp [scanSplit] at h
  | succ fuel ih =>
    intro i k h
    by_cases hq : q i
    · simp [scanSplit, hq] at h
      subst h
      exact ⟨hq, Nat.le_refl _, by omega, fun j h1 h2 => by omega⟩
    · simp [scanSplit, hq] at h
      obtain ⟨h1, h2, h3, h4⟩ := ih (i + 1) k h
      refine ⟨h1, by omega, by omega, fun j hj1 hj2 => ?_⟩
      rcases Nat.eq_or_lt_of_le hj1 with heq | hlt
      · subst heq; exact Bool.eq_false_iff.mpr hq
      · exact h4 j hlt hj2

theorem scanSplit_none (q : Nat → Bool) :
    ∀ (fuel i : Nat), scanSplit q i fuel = none →
      ∀ j, i ≤ j → j < i + fuel → q j = false := by
  intro fuel
  induction fuel with
  | zero => intro i _ j h1 h2; omega
  | succ fuel ih =>
    intro i h j h1 h2
    by_cases hq : q i
    · simp [scanSplit, hq] at h
    · simp [scanSplit, hq] at h
      rcases Nat.eq_or_lt_of_le h1 with heq | hlt
      · subst heq; exact Bool.eq_false_iff.mpr hq
      · exact ih (i + 1) h j hlt (by omega)

theorem scanSplit_none_of (q : Nat → Bool) :
    ∀ (fuel i : Nat), (∀ j, i ≤ j → j < i + fuel → q j = false) →
      scanSplit q i fuel = none := by
  intro fuel
  induction fuel with
  | zero => intro i _; rfl
  | succ fuel ih =>
    intro i h
    have hq : q i = false := h i (Nat.le_refl _) (by omega)
    simp [scanSplit, hq]
    exact ih (i + 1) (fun j h1 h2 => h j (by omega) (by omega))

/-- The success case of `truncate_context` with a positive drop count,
fully characterised: the history was over target, the kept suffix is the
one with the fewest drops that fits (all smaller drop counts fail), the
drop count is less than the conversation length, and the new history is
system messages, then the synthetic summary message, then the suffix. -/
theorem truncate_ok_pos (enc : String → Nat) (cm : ConversationManager)
    (t : Nat) (chat : List Message → String) (cm' : ConversationManager)
    (k : Nat) (h : cm.truncate_context enc (some t) chat = .ok (cm', k))
    (hk : 0 < k) :
    t < countTokensList enc cm.messages ∧
    k < (convMessages cm.messages).length ∧
    countTokensList enc
      (sysMessages cm.messages ++ (convMessages cm.messages).drop k) ≤ t ∧
    (∀ j, j < k →
      t < countTokensList enc
        (sysMessages cm.messages ++ (convMessages cm.messages).drop j)) ∧
    cm' = ConversationManager.mk cm.system_prompt cm.max_context_tokens
      cm.model_name
      (sysMessages cm.messages ++
        [⟨"user", "[Context Summary]: " ++
          chat (summaryPrompt ((convMessages cm.messages).take k))⟩] ++
        (convMessages cm.messages).drop k)
      cm.metadata := by
  simp only [ConversationManager.truncate_context, Option.getD_some] at h
  split at h
  · rename_i hle
    simp only [Except.ok.injEq, Prod.mk.injEq] at h
    omega
  · rename_i hle
    split at h
    · simp at h
    · rename_i hsplit
      simp only [Except.ok.injEq, Prod.mk.injEq] at h
      obtain ⟨hcm, hk'⟩ := h
      cases hopt : scanSplit
          (fun i => decide (countTokensList enc
            (sysMessages cm.messages ++ (convMessages cm.messages).drop i) ≤ t))
          0 (convMessages cm.messages).length with
      | none =>
        rw [hopt] at hsplit
        simp at hsplit
      | some s₀ =>
        rw [hopt] at hsplit hk' hcm
        simp only [Option.getD_some] at hsplit hk' hcm
        obtain ⟨hq, _, hlt, hbefore⟩ := scanSplit_some _ _ _ _ hopt
        have hs₀n : s₀ < (convMessages cm.messages).length := by omega
        have hkeq : k = s₀ := by
          rw [← hk', List.length_take]
          omega
        subst hkeq
        refine ⟨by omega, hs₀n, ?_, ?_, hcm.symm⟩
        · exact of_decide_eq_true hq
        · intro j hj
          have := hbefore j (Nat.zero_le _) hj
          have := of_decide_eq_false this
          omega

/-- The no-drop success case of `truncate_context`: the state is
unchanged and the current count was within target. -/
theorem truncate_ok_zero (enc : String → Nat) (cm : ConversationManager)
    (t : Nat) (chat : List Message → String) (cm' : ConversationManager)
    (h : cm.truncate_context enc (some t) chat = .ok (cm', 0)) :
    cm' = cm ∧ countTokensList enc cm.messages ≤ t := by
  simp only [ConversationManager.truncate_context, Option.getD_some] at h
  split at h
  · rename_i hle
    simp only [Except.ok.injEq, Prod.mk.injEq] at h
    exact ⟨h.1.symm, hle⟩
  · rename_i hle
    split at h
    · simp at h
    · rename_i hsplit
      simp only [Except.ok.injEq, Prod.mk.injEq] at h
      cases hopt : scanSplit
          (fun i => decide (countTokensList enc
            (sysMessages cm.messages ++ (convMessages cm.messages).drop i) ≤ t))
          0 (convMessages cm.messages).length with
      | none => rw [hopt] at hsplit; simp at hsplit
      | some s₀ =>
        rw [hopt] at hsplit h
        simp only [Option.getD_some] at hsplit h
        obtain ⟨hq, _, hlt, _⟩ := scanSplit_some _ _ _ _ hopt
        have : (0 : Nat) < s₀ := Nat.pos_of_ne_zero hsplit
        have := h.2
        rw [List.length_take] at this
        omega

/-- `truncate_context` fails exactly when the history is over target and
no suffix of the conversation messages (obtained by dropping `i < n`
messages) fits; and the failure does not depend on the summarizer. -/
theorem truncate_error_iff (enc : String → Nat) (cm : ConversationManager)
    (t : Nat) (chat : List Message → String) :
    (∃ e, cm.truncate_context enc (some t) chat = .error e) ↔
      (t < countTokensList enc cm.messages ∧
       ∀ i, i < (convMessages cm.messages).length →
         t < countTokensList enc
           (sysMessages cm.messages ++ (convMessages cm.messages).drop i)) := by
  constructor
  · rintro ⟨e, h⟩
    simp only [ConversationManager.truncate_context, Option.getD_some] at h
    split at h
    · simp at h
    · rename_i hle
      refine ⟨by omega, ?_⟩
      split at h
      · rename_i hsplit
        cases hopt : scanSplit
            (fun i => decide (countTokensList enc
              (sysMessages cm.messages ++ (convMessages cm.messages).drop i) ≤ t))
            0 (convMessages cm.messages).length with
        | none =>
          intro i hi
          have := scanSplit_none _ _ _ hopt i (Nat.zero_le _) (by omega)
          have := of_decide_eq_false this
          omega
        | some s₀ =>
          rw [hopt] at hsplit
          simp only [Option.getD_some] at hsplit
          subst hsplit
          obtain ⟨hq, _, _, _⟩ := scanSplit_some _ _ _ _ hopt
          have hfit := of_decide_eq_true hq
          rw [List.drop_zero, countTokens_sys_conv] at hfit
          omega
      · simp at h
  · rintro ⟨hgt, hall⟩
    have hle : ¬ countTokensList enc cm.messages ≤ t := by omega
    have hnone : scanSplit
        (fun i => decide (countTokensList enc
          (sysMessages cm.messages ++ (convMessages cm.messages).drop i) ≤ t))
        0 (convMessages cm.messages).length = none := by
      apply scanSplit_none_of
      intro j _ hj
      simp only [decide_eq_false_iff_not]
      have := hall j (by omega)
      omega
    refine ⟨"Cannot fit conversation within token limit (" ++ toString t ++
      " tokens). This indicates a configuration issue: either increase " ++
      "max_context_tokens, reduce message sizes, or check for abnormally large messages.", ?_⟩
    simp only [ConversationManager.truncate_context, Option.getD_some, hle,
      if_false, hnone, Option.getD_none, if_pos rfl, if_true]

/-- The failure outcome of `truncate_context` does not depend on the
summarizer: it is decided before any summarization. -/
theorem truncate_error_indep (enc : String → Nat) (cm : ConversationManager)
    (tt : Option Nat) (chat chat' : List Message → String) (e : String)
    (h : cm.truncate_context enc tt chat = .error e) :
    cm.truncate_context enc tt chat' = .error e := by
  simp only [ConversationManager.truncate_context] at h ⊢
  split at h
  · simp at h
  · rename_i hle
    split at h
    · rename_i hz
      rw [if_neg hle, if_pos hz]
      simpa using h
    · simp at h

/-! Claim theorems. -/

/-- C1 (counterexample): after `prepare_messages_for_api(1000, chatLong)`
on a 1020-token-budget manager (target 20), the returned message list
counts 69 tokens, exceeding the target — the inserted summary message is
not accounted for by the suffix scan, so the "payload plus reserve fits
the budget" guarantee fails. -/
theorem claim_C1_counterexample :
    cmTwo.prepare_messages_for_api encLen 1000 chatLong =
      .ok (cmTwoAfter, cmTwoAfter.messages) ∧
    cmTwo.max_context_tokens - 1000 = 20 ∧
    countTokensList encLen cmTwoAfter.messages = 69 ∧
    ¬ countTokensList encLen cmTwoAfter.messages ≤ 20 := by
  refine ⟨by rfl, by decide, by decide, by decide⟩

/-- C1 (amended): after a non-fatal `truncate_context(t, chat)`, the kept
messages other than the inserted summary (system messages plus the kept
suffix) fit within `t`; the full resulting list is only bounded by `t`
plus the token cost of the summary message itself
(`enc(summary content) + 4`). -/
theorem claim_C1_truncate_fit (enc : String → Nat) (cm : ConversationManager)
    (t : Nat) (chat : List Message → String) (cm' : ConversationManager)
    (k : Nat) (h : cm.truncate_context enc (some t) chat = .ok (cm', k)) :
    countTokensList enc
      (sysMessages cm.messages ++ (convMessages cm.messages).drop k) ≤ t ∧
    countTokensList enc cm'.messages ≤
      t + (enc ("[Context Summary]: " ++
        chat (summaryPrompt ((convMessages cm.messages).take k))) + 4) := by
  cases k with
  | zero =>
    obtain ⟨rfl, hle⟩ := truncate_ok_zero enc cm t chat cm' h
    rw [List.drop_zero, countTokens_sys_conv]
    exact ⟨hle, by omega⟩
  | succ k' =>
    obtain ⟨_, _, hfit, _, rfl⟩ := truncate_ok_pos enc cm t chat cm' (k' + 1) h
      (Nat.succ_pos k')
    refine ⟨hfit, ?_⟩
    simp only [countTokensList_eq_sum, List.map_append, List.sum_append] at hfit ⊢
    simp only [List.map_cons, List.sum_cons, List.map_nil, List.sum_nil]
    omega

/-- C1 (witness): the amended bound at the concrete counterexample
instance (`cmTwo`, target 20): the kept suffix fits in 20 and the full
list fits in `20 + (30 + 19) + 4`. -/
theorem claim_C1_witness :
    countTokensList encLen
      (sysMessages cmTwo.messages ++ (convMessages cmTwo.messages).drop 1) ≤ 20 ∧
    countTokensList encLen cmTwoAfter.messages ≤
      20 + (encLen ("[Context Summary]: " ++
        chatLong (summaryPrompt ((convMessages cmTwo.messages).take 1))) + 4) :=
  claim_C1_truncate_fit encLen cmTwo 20 chatLong cmTwoAfter 1 (by rfl)

/-- C2 (counterexample): with three 10-token messages and target 30, the
code keeps the two-message suffix and returns a drop count of 1, even
though the strictly smaller one-message suffix (drop 2) also fits — so
the kept suffix is not the smallest fitting suffix and the claimed
"drop most first" scan (which would return 2) disagrees with the code. -/
theorem claim_C2_counterexample :
    cmThree.truncate_context encLen (some 30) chatS = .ok (cmThreeAfter, 1) ∧
    countTokensList encLen
      (sysMessages cmThree.messages ++ (convMessages cmThree.messages).drop 2) ≤ 30 ∧
    (1 : Nat) ≠ 2 := by
  refine ⟨by rfl, by decide, by decide⟩

/-- C2 (amended): a non-fatal shrinking `truncate_context(t, chat)` keeps
the largest contiguous suffix of the non-system conversation messages
that fits (candidate split points scanned from dropping the fewest
messages to dropping the most, taking the first that fits: every smaller
drop count fails), replaces the dropped prefix by the single synthetic
message `role=user, content="[Context Summary]: " + summary` (the
summarizer applied to the dropped prefix), and returns the number of
dropped original messages. -/
theorem claim_C2_keeps_largest_fitting_suffix (enc : String → Nat)
    (cm : ConversationManager) (t : Nat) (chat : List Message → String)
    (cm' : ConversationManager) (k : Nat)
    (h : cm.truncate_context enc (some t) chat = .ok (cm', k)) (hk : 0 < k) :
    cm'.messages =
      sysMessages cm.messages ++
      [⟨"user", "[Context Summary]: " ++
        chat (summaryPrompt ((convMessages cm.messages).take k))⟩] ++
      (convMessages cm.messages).drop k ∧
    countTokensList enc
      (sysMessages cm.messages ++ (convMessages cm.messages).drop k) ≤ t ∧
    (∀ j, j < k →
      t < countTokensList enc
        (sysMessages cm.messages ++ (convMessages cm.messages).drop j)) ∧
    k = ((convMessages cm.messages).take k).length := by
  obtain ⟨_, hkn, hfit, hfail, rfl⟩ := truncate_ok_pos enc cm t chat cm' k h hk
  refine ⟨rfl, hfit, hfail, ?_⟩
  rw [List.length_take]
  omega

/-- C2 (witness): the amended characterisation at the concrete instance
(`cmThree`, target 30, drop count 1). -/
theorem claim_C2_witness :
    cmThreeAfter.messages =
      sysMessages cmThree.messages ++
      [⟨"user", "[Context Summary]: " ++
        chatS (summaryPrompt ((convMessages cmThree.messages).take 1))⟩] ++
      (convMessages cmThree.messages).drop 1 ∧
    countTokensList encLen
      (sysMessages cmThree.messages ++ (convMessages cmThree.messages).drop 1) ≤ 30 ∧
    (∀ j, j < 1 →
      30 < countTokensList encLen
        (sysMessages cmThree.messages ++ (convMessages cmThree.messages).drop j)) ∧
    (1 : Nat) = ((convMessages cmThree.messages).take 1).length :=
  claim_C2_keeps_largest_fitting_suffix encLen cmThree 30 chatS cmThreeAfter 1
    (by rfl) (by decide)

/-- C3 (counterexample): a manager with one 100-token user message at
target 50: keeping zero conversation messages would fit (the system
prefix alone counts 2 ≤ 50), yet `truncate_context` still raises — the
scan only ever considers nonempty suffixes, so the claimed "fails exactly
when even zero messages do not fit" characterisation is wrong. -/
theorem claim_C3_counterexample :
    cmBig.truncate_context encLen (some 50) chatS =
      .error ("Cannot fit conversation within token limit (50 tokens). " ++
        "This indicates a configuration issue: either increase " ++
        "max_context_tokens, reduce message sizes, or check for abnormally large messages.") ∧
    countTokensList encLen
      (sysMessages cmBig.messages ++
        (convMessages cmBig.messages).drop (convMessages cmBig.messages).length) ≤ 50 := by
  refine ⟨by rfl, by decide⟩

/-- C3 (amended): `truncate_context(t, chat)` fails exactly when the
history exceeds `t` and no suffix obtained by dropping `i < n` of the `n`
conversation messages fits within `t` (the scan never considers the
empty suffix); the failure is decided before any mutation (the state is
passed through unchanged) and does not involve the summarizer: the same
error occurs for every summarizer. -/
theorem claim_C3_fatal_iff (enc : String → Nat) (cm : ConversationManager)
    (t : Nat) (chat : List Message → String) :
    ((∃ e, cm.truncate_context enc (some t) chat = .error e) ↔
      (t < countTokensList enc cm.messages ∧
       ∀ i, i < (convMessages cm.messages).length →
         t < countTokensList enc
           (sysMessages cm.messages ++ (convMessages cm.messages).drop i))) ∧
    (∀ chat' e, cm.truncate_context enc (some t) chat = .error e →
      cm.truncate_context enc (some t) chat' = .error e) := by
  refine ⟨truncate_error_iff enc cm t chat, ?_⟩
  intro chat' e h
  exact truncate_error_indep enc cm (some t) chat chat' e h

/-- C3 (witness): the amended characterisation applied at `cmBig` with
target 50: the summarizer-independence part transports the concrete
failure from `chatS` to `chatLong`. -/
theorem claim_C3_witness :
    cmBig.truncate_context encLen (some 50) chatLong =
      .error ("Cannot fit conversation within token limit (50 tokens). " ++
        "This indicates a configuration issue: either increase " ++
        "max_context_tokens, reduce message sizes, or check for abnormally large messages.") :=
  (claim_C3_fatal_iff encLen cmBig 50 chatS).2 chatLong _ (by rfl)

/-- C10: a non-fatal `truncate_context` leaves the metadata — in
particular `turn_count`, `created_at` and `updated_at` — unchanged: the
summary message is spliced directly into the message list without going
through `add_message`. -/
theorem claim_C10_truncate_metadata_frame (enc : String → Nat)
    (cm : ConversationManager) (tt : Option Nat)
    (chat : List Message → String) (cm' : ConversationManager) (k : Nat)
    (h : cm.truncate_context enc tt chat = .ok (cm', k)) :
    cm'.metadata = cm.metadata ∧
    cm'.metadata.turn_count = cm.metadata.turn_count ∧
    cm'.metadata.created_at = cm.metadata.created_at ∧
    cm'.metadata.updated_at = cm.metadata.updated_at := by
  have hmeta : cm'.metadata = cm.metadata := by
    simp only [ConversationManager.truncate_context] at h
    split at h
    · simp only [Except.ok.injEq, Prod.mk.injEq] at h
      rw [← h.1]
    · split at h
      · simp at h
      · simp only [Except.ok.injEq, Prod.mk.injEq] at h
        rw [← h.1]
  exact ⟨hmeta, by rw [hmeta], by rw [hmeta], by rw [hmeta]⟩

/-- C10 (witness): the frame condition at the concrete truncation of
`cmThree` (which both drops a message and inserts the summary). -/
theorem claim_C10_witness :
    cmThreeAfter.metadata = cmThree.metadata ∧
    cmThreeAfter.metadata.turn_count = cmThree.metadata.turn_count ∧
    cmThreeAfter.metadata.created_at = cmThree.metadata.created_at ∧
    cmThreeAfter.metadata.updated_at = cmThree.metadata.updated_at :=
  claim_C10_truncate_metadata_frame encLen cmThree (some 30) chatS cmThreeAfter 1
    (by rfl)

/-- No message produced by the non-system filter has role `system`. -/
theorem convMessages_no_sys (ms : List Message) :
    ∀ m ∈ convMessages ms, m.role ≠ "system" := by
  intro m hm
  have := List.of_mem_filter hm
  simpa using this

/-- Under the invariant, the system filter yields at most one message. -/
theorem sysMessages_of_SysInv (ms : List Message) (h : SysInv ms) :
    sysMessages ms = [] ∨ ∃ m, sysMessages ms = [m] := by
  cases ms with
  | nil => exact Or.inl rfl
  | cons a as =>
    have htail : sysMessages as = [] := by
      rw [sysMessages, List.filter_eq_nil_iff]
      intro m hm
      have := h m (by simpa using hm)
      simpa using this
    by_cases ha : a.role == "system"
    · right
      refine ⟨a, ?_⟩
      rw [sysMessages] at htail ⊢
      simp [List.filter_cons, ha, htail]
    · left
      rw [sysMessages] at htail ⊢
      simp [List.filter_cons, ha, htail]

/-- Appending a non-system message preserves the invariant. -/
theorem SysInv_append_nonsys (ms : List Message) (m : Message)
    (h : SysInv ms) (hm : m.role ≠ "system") : SysInv (ms ++ [m]) := by
  cases ms with
  | nil =>
    intro x hx
    simp at hx
  | cons a as =>
    intro x hx
    simp only [List.cons_append, List.tail_cons] at hx
    rcases List.mem_append.mp hx with hx | hx
    · exact h x (by simpa using hx)
    · simp at hx
      subst hx
      exact hm

/-- The message list produced by a successful truncation satisfies the
invariant whenever the original did. -/
theorem SysInv_truncShape (ms : List Message) (s : String) (k : Nat)
    (h : SysInv ms) :
    SysInv (sysMessages ms ++ [(⟨"user", s⟩ : Message)] ++ (convMessages ms).drop k) := by
  rcases sysMessages_of_SysInv ms h with hs | ⟨m, hs⟩
  · rw [hs]
    intro x hx
    simp only [List.nil_append, List.cons_append, List.tail_cons] at hx
    exact convMessages_no_sys ms x (List.drop_subset _ _ hx)
  · rw [hs]
    intro x hx
    simp only [List.cons_append, List.singleton_append, List.tail_cons] at hx
    rcases List.mem_cons.mp hx with hx | hx
    · subst hx; simp
    · exact convMessages_no_sys ms x (List.drop_subset _ _ hx)

/-- Each validated operation in the safe fragment preserves the
invariant. -/
theorem SysInv_applyOp (enc : String → Nat) (chat : List Message → String)
    (cm : ConversationManager) (op : Op) (h : SysInv cm.messages)
    (hop : SafeOp op) : SysInv (applyOp enc chat cm op).messages := by
  cases op with
  | add role content now =>
    simp only [applyOp, ConversationManager.add_message]
    split
    · simpa using h
    · split
      · simpa using h
      · simp only [Except.toOption, Option.getD_some]
        exact SysInv_append_nonsys cm.messages ⟨role, content⟩ h hop
  | setSys prompt replace =>
    simp only [applyOp, ConversationManager.set_system_prompt]
    split
    · simpa using h
    · simp only [SafeOp] at hop
      subst hop
      simp only [Except.toOption, Option.getD_some, if_pos rfl]
      intro m hm
      simp only [List.tail_cons] at hm
      have := List.of_mem_filter hm
      simpa using this
  | trunc target =>
    simp only [applyOp]
    cases htr : cm.truncate_context enc target chat with
    | error e => exact h
    | ok p =>
      obtain ⟨cm', k⟩ := p
      cases target with
      | none =>
        -- `target = None` defaults to `max_context_tokens`; reuse the
        -- characterisation at that explicit target.
        have htr' : cm.truncate_context enc (some cm.max_context_tokens) chat =
            .ok (cm', k) := by
          simpa [ConversationManager.truncate_context] using htr
        cases k with
        | zero =>
          obtain ⟨rfl, -⟩ := truncate_ok_zero enc cm _ chat cm' htr'
          exact h
        | succ k' =>
          obtain ⟨-, -, -, -, rfl⟩ :=
            truncate_ok_pos enc cm _ chat cm' (k' + 1) htr' (Nat.succ_pos k')
          exact SysInv_truncShape cm.messages _ _ h
      | some t =>
        cases k with
        | zero =>
          obtain ⟨rfl, -⟩ := truncate_ok_zero enc cm t chat cm' htr
          exact h
        | succ k' =>
          obtain ⟨-, -, -, -, rfl⟩ :=
            truncate_ok_pos enc cm t chat cm' (k' + 1) htr (Nat.succ_pos k')
          exact SysInv_truncShape cm.messages _ _ h
  | doReset keep now =>
    simp only [applyOp, ConversationManager.reset]
    split
    · intro m hm; simp at hm
    · intro m hm; simp at hm

/-- C6 (counterexample): starting from a manager constructed with system
prompt `"a"`, the single operation `set_system_prompt("b", replace=False)`
yields two messages of role `system` — the claimed invariant fails for
sequences containing `set_system_prompt` with `replace=false`. -/
theorem claim_C6_counterexample :
    ¬ SysInv (applyOps encLen chatS cmSysA [Op.setSys "b" false]).messages := by
  decide

/-- The safe fragment preserves the invariant along any fold. -/
theorem SysInv_foldl (enc : String → Nat) (chat : List Message → String) :
    ∀ (ops : List Op) (cm : ConversationManager), SysInv cm.messages →
      (∀ op ∈ ops, SafeOp op) →
      SysInv (ops.foldl (applyOp enc chat) cm).messages := by
  intro ops
  induction ops with
  | nil => intro cm h _; simpa using h
  | cons op rest ih =>
    intro cm h hops
    rw [List.foldl_cons]
    exact ih _ (SysInv_applyOp enc chat cm op h (hops op (by simp)))
      (fun o ho => hops o (by simp [ho]))

/-- C6 (amended): for every operation sequence drawn from the safe
fragment — `add_message` with a non-system role, `set_system_prompt` with
`replace=true`, `truncate_context`, `reset` — starting from a freshly
constructed manager, the resulting state has at most one `system`
message and it occupies the first position (stated as: no message after
the head has role `system`).  `add_message("system", ...)` and
`set_system_prompt(..., replace=false)` are excluded: they can violate
the invariant. -/
theorem claim_C6_system_invariant (enc : String → Nat)
    (chat : List Message → String) (sp : Option String) (maxT : Nat)
    (mn now : String) (ops : List Op) (hops : ∀ op ∈ ops, SafeOp op) :
    SysInv (applyOps enc chat (mkConversationManager sp maxT mn now) ops).messages := by
  have hinit : SysInv (mkConversationManager sp maxT mn now).messages := by
    simp only [mkConversationManager]
    split
    · intro m hm; simp at hm
    · intro m hm; simp at hm
  rw [applyOps]
  exact SysInv_foldl enc chat ops (mkConversationManager sp maxT mn now) hinit hops

/-- C6 (witness): the invariant at a concrete safe sequence exercising
all four operations. -/
theorem claim_C6_witness :
    SysInv (applyOps encLen chatS (mkConversationManager (some "p") 1000 "m" "t0")
      [Op.add "user" "hi" "t1", Op.setSys "q" true, Op.trunc (some 1000),
       Op.doReset true "t2"]).messages :=
  claim_C6_system_invariant encLen chatS (some "p") 1000 "m" "t0" _ (by decide)

/-- C7: `ToolExecutor.execute` is a total function (it never raises, by
construction in this embedding): an unregistered name yields a failed
`ToolResult` carrying the not-found message; an exception from the
tool's own `execute` is converted to a failed `ToolResult` wrapping the
exception message; a returned result is passed through unchanged. -/
theorem claim_C7_executor_never_raises (registry : List (String × Tool))
    (name : String) (args : List (String × String)) :
    (registryGet registry name = none →
      ToolExecutor.execute registry name args =
        { success := false,
          error := some ("Tool '" ++ name ++ "' not found in registry") }) ∧
    (∀ t e, registryGet registry name = some t → t.execute args = .error e →
      ToolExecutor.execute registry name args =
        { success := false,
          error := some ("Unexpected error executing tool '" ++ name ++ "': " ++ e) }) ∧
    (∀ t r, registryGet registry name = some t → t.execute args = .ok r →
      ToolExecutor.execute registry name args = r) := by
  refine ⟨?_, ?_, ?_⟩
  · intro hnone
    simp [ToolExecutor.execute, hnone]
  · intro t e hsome herr
    simp [ToolExecutor.execute, hsome, herr]
  · intro t r hsome hok
    simp [ToolExecutor.execute, hsome, hok]

/-- C7 (witness): at the empty registry the result is the not-found
failure, and for a registered always-raising tool the result is the
wrapped-exception failure. -/
theorem claim_C7_witness :
    ToolExecutor.execute [] "missing" [] =
      { success := false,
        error := some "Tool 'missing' not found in registry" } ∧
    ToolExecutor.execute [("boom", toolBoom)] "boom" [] =
      { success := false,
        error := some "Unexpected error executing tool 'boom': boom" } :=
  ⟨(claim_C7_executor_never_raises [] "missing" []).1 rfl,
   (claim_C7_executor_never_raises [("boom", toolBoom)] "boom" []).2.1
     toolBoom "boom" rfl rfl⟩

/-- C8: `count_tokens` is a pure function of the target list (the full
history when called with `None`) and equals the sum over messages of
`enc(content) + 4` plus the flat overhead `2`. -/
theorem claim_C8_count_tokens_formula (enc : String → Nat)
    (cm : ConversationManager) (ms : List Message) :
    cm.count_tokens enc (some ms) =
      (ms.map (fun m => enc m.content + 4)).sum + 2 ∧
    cm.count_tokens enc none =
      (cm.messages.map (fun m => enc m.content + 4)).sum + 2 := by
  constructor
  · simp [ConversationManager.count_tokens, countTokensList_eq_sum]
  · simp [ConversationManager.count_tokens, countTokensList_eq_sum]

/-- C9: `load` after `save` reproduces the entire state — system prompt,
token budget, model name, message list (unicode content is just string
data here) and metadata including `turn_count` and extra caller keys. -/
theorem claim_C9_save_load_roundtrip (cm : ConversationManager) (now : String) :
    ConversationManager.load cm.save now = cm := by
  cases cm
  rfl

/-- C5 (counterexample): a model response with no tool calls and absent
content extracts to the empty string, and the loop then fails with
`add_message`'s "Message content cannot be empty" `ValueError` instead
of appending it and returning it as the final answer. -/
theorem claim_C5_counterexample :
    executeLoop encLen chatS [] cArgs "t1" 10 cmFresh "Hello"
      [Response.rmap none none] =
      .error "Message content cannot be empty" ∧
    extractAssistantContent (Response.rmap none none) = "" := by
  exact ⟨by rfl, by rfl⟩

set_option maxRecDepth 40000 in
/-- One-step unfolding of the loop body (the `fuel + 1`, nonempty
responses case), established once since the recursive definition is
expensive to unfold inside larger goals. -/
theorem executeLoopAux_succ (enc : String → Nat) (chat : List Message → String)
    (registry : List (String × Tool))
    (parseArgs : String → Option (List (String × String))) (now : String)
    (fuel : Nat) (cm : ConversationManager) (r : Response) (rest : List Response) :
    executeLoopAux enc chat registry parseArgs now (fuel + 1) cm (r :: rest) =
      (match cm.prepare_messages_for_api enc 1000 chat with
      | .error e => .error e
      | .ok (cm', _) =>
          match parseToolCallsResp parseArgs r with
          | [] =>
              (match cm'.add_message "assistant" (extractAssistantContent r) now with
              | .error e => .error e
              | .ok cm'' => .ok (extractAssistantContent r, cm''))
          | _ :: _ =>
              match executeToolCalls registry now cm' (parseToolCallsResp parseArgs r) r with
              | .error e => .error e
              | .ok cm'' => executeLoopAux enc chat registry parseArgs now fuel cm'' rest) :=
  rfl

/-- C5 (amended): for a model response with no tool calls, the loop
reaches the Done state provided the extracted assistant content is
non-empty: the content is appended as an assistant message (refreshing
`updated_at`, leaving `turn_count` unchanged) and returned as the final
answer.  When the extracted content is empty, `add_message` raises, so
the empty-content case of the original claim does not hold. -/
theorem claim_C5_done_state (enc : String → Nat) (chat : List Message → String)
    (registry : List (String × Tool))
    (parseArgs : String → Option (List (String × String))) (now : String)
    (fuel : Nat) (cm cm1 cm2 : ConversationManager) (user_input : String)
    (k : Nat) (r : Response) (rest : List Response)
    (h1 : cm.add_message "user" user_input now = .ok cm1)
    (h2 : cm1.truncate_context enc (some (cm1.max_context_tokens - 1000)) chat =
      .ok (cm2, k))
    (h3 : parseToolCallsResp parseArgs r = [])
    (h4 : extractAssistantContent r ≠ "") :
    executeLoop enc chat registry parseArgs now (fuel + 1) cm user_input (r :: rest) =
      .ok (extractAssistantContent r,
        ConversationManager.mk cm2.system_prompt cm2.max_context_tokens
          cm2.model_name
          (cm2.messages ++ [⟨"assistant", extractAssistantContent r⟩])
          (Metadata.mk cm2.metadata.created_at now cm2.metadata.turn_count
            cm2.metadata.extra)) := by
  rw [executeLoop]
  simp only [h1]
  rw [executeLoopAux_succ]
  have hp : cm1.prepare_messages_for_api enc 1000 chat = .ok (cm2, cm2.messages) := by
    rw [ConversationManager.prepare_messages_for_api, h2]
  simp only [hp, h3]
  rw [ConversationManager.add_message]
  rw [if_neg (by decide)]
  rw [if_neg h4]
  rfl

/-- C5 (witness): the Done state at a concrete single-iteration run with
content `"Assistant reply"`. -/
theorem claim_C5_witness :
    executeLoop encLen chatS [] cArgs "t1" (9 + 1) cmFresh "Hello"
      [Response.rmap (some "Assistant reply") none] =
      .ok (extractAssistantContent (Response.rmap (some "Assistant reply") none),
        ConversationManager.mk cmFreshUser.system_prompt
          cmFreshUser.max_context_tokens cmFreshUser.model_name
          (cmFreshUser.messages ++
            [⟨"assistant", extractAssistantContent
              (Response.rmap (some "Assistant reply") none)⟩])
          (Metadata.mk cmFreshUser.metadata.created_at "t1"
            cmFreshUser.metadata.turn_count cmFreshUser.metadata.extra)) :=
  claim_C5_done_state encLen chatS [] cArgs "t1" 9 cmFresh cmFreshUser cmFreshUser
    "Hello" 0 (Response.rmap (some "Assistant reply") none) [] (by rfl) (by rfl)
    (by rfl) (by decide)

set_option maxRecDepth 10000

/-- C4 (counterexample): feeding the claimed fragments through the
detector does not yield `"Hello "` and `"world "` and capture a call
named `"f"`: all three fragments pass through verbatim (including the
marker and the array text) and no tool call is captured, because
extraction requires a literal `"tool_calls":` key or that the
accumulated text itself starts with `[\x7b`, and neither ever holds
here. -/
theorem claim_C4_counterexample :
    processStream cParse cArgs ["Hello ", "world <|tool_call|>", arrStr] =
      (["Hello ", "world <|tool_call|>", arrStr], none) ∧
    (["Hello ", "world <|tool_call|>", arrStr],
      (none : Option (List ParsedToolCall))) ≠
      (["Hello ", "world "], some [⟨"1", "f", []⟩]) := by
  constructor
  · decide
  · decide

/-- C4 (amended): on the claimed fragments the detector forwards every
fragment verbatim and captures nothing (the bare-array degenerate branch
requires the whole accumulated text to start with `[\x7b`); the
degenerate acceptance does fire when the accumulated text is itself a
bare tool-call array that also contains a marker (here inside the `id`
string), in which case exactly one call named `"f"` is captured and the
stripped before-marker prefix is yielded. -/
theorem claim_C4_detector_traces :
    processStream cParse cArgs ["Hello ", "world <|tool_call|>", arrStr] =
      (["Hello ", "world <|tool_call|>", arrStr], none) ∧
    processStream cParse cArgs [degenStr] =
      (["[\x7b\"id\":\""], some [⟨"<|tool_call|>", "f", []⟩]) := by
  constructor
  · decide
  · decide

end Turtle


